import Mathlib

/-!
Shallow embedding of the YoutubeDownload repository's core logic
(src/core/downloader.py, src/core/parser.py, src/core/config.py,
src/ui/main_window.py) and proofs of the specification claims about it.

Machine integers are modelled as `Nat`/`Int`; Python floats arising from
byte counts, rates and percentages are modelled as `ℚ` (all the values the
claims exercise are exactly representable, and `f"{x:.1f}"`-style rendering
is modelled with round-half-to-even, which is what Python uses).
-/

/-- Left-pads the decimal rendering of `n` with zeros to width `w`
(models Python's `f"{n:02d}"` and the fractional part of `f"{x:.1f}"`). -/

def padZeros (w : ℕ) (n : ℕ) : String :=
  let s := toString n
  String.mk (List.replicate (w - s.length) '0') ++ s

/-- Round a rational to the nearest integer, ties to even
(Python's rounding mode for `round` and for `format`/f-strings). -/

def roundHalfEven (q : ℚ) : ℤ :=
  let f := ⌊q⌋
  if q - f < 1 / 2 then f
  else if (1 : ℚ) / 2 < q - f then f + 1
  else if f % 2 = 0 then f else f + 1

/-- Fixed-point decimal rendering of a rational with `d` digits after the
point: models Python `f"{q:.df}"` (`d = 0` prints no decimal point). -/

def formatFixed (q : ℚ) (d : ℕ) : String :=
  let scaled := roundHalfEven (q * ((10 : ℚ) ^ d))
  let sign := if scaled < 0 then "-" else ""
  let m := scaled.natAbs
  if d = 0 then sign ++ toString m
  else sign ++ toString (m / 10 ^ d) ++ "." ++ padZeros d (m % 10 ^ d)

/-- Embedding of `DownloadWorker._format_bytes` (src/core/downloader.py). -/

def format_bytes (b : ℚ) : String :=
  if b < 1024 then formatFixed b 0 ++ " B"
  else if b < 1024 ^ 2 then formatFixed (b / 1024) 1 ++ " KB"
  else if b < 1024 ^ 3 then formatFixed (b / 1024 ^ 2) 1 ++ " MB"
  else formatFixed (b / 1024 ^ 3) 2 ++ " GB"

/-- Embedding of `DownloadWorker._format_speed` (src/core/downloader.py). -/

def format_speed (s : ℚ) : String :=
  if s < 1024 then formatFixed s 0 ++ " B/s"
  else if s < 1024 ^ 2 then formatFixed (s / 1024) 1 ++ " KB/s"
  else formatFixed (s / 1024 ^ 2) 1 ++ " MB/s"

/-- Embedding of `DownloadWorker._format_eta` (src/core/downloader.py):
negative seconds return the literal "N/A"; otherwise `divmod` by 3600/60. -/

def format_eta (seconds : ℤ) : String :=
  if seconds < 0 then "N/A"
  else
    let n := seconds.toNat
    let h := n / 3600
    let remainder := n % 3600
    let m := remainder / 60
    let s := remainder % 60
    if 0 < h then toString h ++ ":" ++ padZeros 2 m ++ ":" ++ padZeros 2 s
    else toString m ++ ":" ++ padZeros 2 s

/-- Modelled from the spec (for refinement comparison with `format_eta`):
renders `H:MM:SS` when the duration is at least one hour, else `M:SS`. -/

def specEtaFormat (n : ℕ) : String :=
  if 3600 ≤ n then
    toString (n / 3600) ++ ":" ++ padZeros 2 (n / 60 % 60) ++ ":" ++ padZeros 2 (n % 60)
  else toString (n / 60) ++ ":" ++ padZeros 2 (n % 60)

/-- Python's `a or b` on an optional integer, where both `None` and `0` are
falsy (used for `total_bytes or total_bytes_estimate or 0`). -/

def pyOrNat (a : Option ℕ) (b : ℕ) : ℕ :=
  match a with
  | some n => if n = 0 then b else n
  | none => b

/-- Raw progress callback payload from yt-dlp, as read by
`DownloadWorker._progress_hook`: only the keys the hook consults. -/

structure RawEvent where
  status : String
  downloaded_bytes : Option ℕ
  total_bytes : Option ℕ
  total_bytes_estimate : Option ℕ
  speed : Option ℚ
  eta : Option ℤ
deriving DecidableEq

/-- Normalized progress payload emitted by the `progress` signal. -/

structure ProgressRecord where
  percent : ℚ
  speed : String
  eta : String
  downloaded : String
  total : String
deriving DecidableEq

/-- Percentage computation of `DownloadWorker._progress_hook`:
`min(downloaded / total * 100, 100.0)` when `total > 0`, else `0.0`. -/

def progressPercent (downloaded total : ℕ) : ℚ :=
  if 0 < total then min ((downloaded : ℚ) / (total : ℚ) * 100) 100 else 0

/-- Record built by the `status == "downloading"` branch of
`DownloadWorker._progress_hook`. -/

def downloadingRecord (d : RawEvent) : ProgressRecord :=
  let downloaded := d.downloaded_bytes.getD 0
  let total := pyOrNat d.total_bytes (pyOrNat d.total_bytes_estimate 0)
  let speed := d.speed.getD 0
  { percent := progressPercent downloaded total
  , speed := if speed ≠ 0 then format_speed speed else "..."
  , eta := match d.eta with
      | some e => format_eta e
      | none => "..."
  , downloaded := format_bytes (downloaded : ℚ)
  , total := if 0 < total then format_bytes (total : ℚ) else "?" }

/-- Embedding of `parser.VideoFormat` after `__init__` has run: `height` and
`width` already carry the `height or 0` / `width or 0` defaults. -/

structure VideoFormat where
  format_id : String
  ext : String
  resolution : String
  filesize : Option ℕ
  vcodec : Option String
  acodec : Option String
  fps : Option ℕ
  tbr : Option ℚ
  format_note : String
  height : ℕ
  width : ℕ
deriving DecidableEq

/-- Embedding of `VideoFormat.__init__` (src/core/parser.py): an absent
height or width is stored as 0 (`height or 0`; Python treats 0 as falsy). -/

def mkVideoFormat (format_id ext resolution : String) (filesize : Option ℕ)
    (vcodec acodec : Option String) (fps : Option ℕ) (tbr : Option ℚ)
    (format_note : String) (height width : Option ℕ) : VideoFormat :=
  { format_id := format_id, ext := ext, resolution := resolution
  , filesize := filesize, vcodec := vcodec, acodec := acodec
  , fps := fps, tbr := tbr, format_note := format_note
  , height := pyOrNat height 0, width := pyOrNat width 0 }

/-- Embedding of `VideoFormat.has_video`: `vcodec != "none" and vcodec is
not None`. -/

def VideoFormat.has_video (f : VideoFormat) : Bool :=
  match f.vcodec with
  | some s => decide (s ≠ "none")
  | none => false

/-- Embedding of `VideoFormat.has_audio`: `acodec != "none" and acodec is
not None`. -/

def VideoFormat.has_audio (f : VideoFormat) : Bool :=
  match f.acodec with
  | some s => decide (s ≠ "none")
  | none => false

/-- Embedding of `VideoFormat.filesize_mb`: `round(filesize / 2^20, 1)` when
the byte size is present and non-zero, else `None`. -/

def VideoFormat.filesize_mb (f : VideoFormat) : Option ℚ :=
  match f.filesize with
  | some n => if n = 0 then none
      else some ((roundHalfEven ((n : ℚ) / (1024 * 1024) * 10) : ℚ) / 10)
  | none => none

/-- Embedding of `parser.VideoInfo`. -/

structure VideoInfo where
  url : String
  title : String
  duration : ℕ
  channel : String
  thumbnail : String
  video_id : String
  formats : List VideoFormat

/-- One entry of the list returned by `get_best_formats` (a Python dict with
fixed keys label/format_id/resolution/height/has_audio/filesize_mb/type). -/

structure BestFmt where
  label : String
  format_id : String
  resolution : String
  height : ℕ
  has_audio : Bool
  filesize_mb : Option ℚ
  type : String
deriving DecidableEq

/-- Video-option dict appended by the first loop of `get_best_formats`. -/

def mkVideoOption (f : VideoFormat) : BestFmt :=
  { label := toString f.height ++ "p • MP4"
  , format_id := f.format_id
  , resolution := toString f.height ++ "p"
  , height := f.height
  , has_audio := f.has_audio
  , filesize_mb := f.filesize_mb
  , type := "video" }

/-- Audio-option dict appended by the audio-only branch of
`get_best_formats`. -/

def mkAudioOption (f : VideoFormat) : BestFmt :=
  { label := "MP3 • Audio Only"
  , format_id := f.format_id
  , resolution := "audio"
  , height := 0
  , has_audio := true
  , filesize_mb := f.filesize_mb
  , type := "audio" }

/-- Video loop of `get_best_formats` (src/core/parser.py lines 184-208):
skip formats without video, skip heights below 240, emit one option per
first-seen height, tracking `seen_heights`. -/

def videoLoop : List VideoFormat → List ℕ → List BestFmt
  | [], _ => []
  | f :: rest, seen =>
    if f.has_video = false then videoLoop rest seen
    else if f.height < 240 then videoLoop rest seen
    else if f.height ∈ seen then videoLoop rest seen
    else mkVideoOption f :: videoLoop rest (f.height :: seen)

/-- Python's `max(formats, key=lambda x: x.tbr or 0)`: the first format with
maximal bitrate, `None` on an empty list (where Python raises). -/

def bestAudioOf : List VideoFormat → Option VideoFormat
  | [] => none
  | f :: rest =>
    some (rest.foldl (fun g h => if (g.tbr.getD 0) < (h.tbr.getD 0) then h else g) f)

/-- Embedding of `get_best_formats` (src/core/parser.py): deduplicated video
options followed by at most one audio-only option. -/

def get_best_formats (vi : VideoInfo) : List BestFmt :=
  let vids := videoLoop vi.formats []
  let audio_formats := vi.formats.filter (fun f => !f.has_video && f.has_audio)
  match bestAudioOf audio_formats with
  | some best => vids ++ [mkAudioOption best]
  | none => vids

/-- Stable insertion of a format into a list sorted by descending height:
building block of the `formats.sort(key=lambda x: -(x.height or 0))` step of
`parse_video`. -/

def insertByHeight (f : VideoFormat) : List VideoFormat → List VideoFormat
  | [] => [f]
  | g :: rest =>
    if g.height ≤ f.height then f :: g :: rest else g :: insertByHeight f rest

/-- Stable sort by descending height, as `parse_video` performs before
building the `VideoInfo`. -/

def sortFmts (l : List VideoFormat) : List VideoFormat :=
  l.foldr insertByHeight []

/-- Resolve operation: the format-processing pipeline of `parse_video`
followed by `get_best_formats` (metadata extraction itself is external). -/

def resolve (vi : VideoInfo) : List BestFmt :=
  get_best_formats
    { url := vi.url, title := vi.title, duration := vi.duration
    , channel := vi.channel, thumbnail := vi.thumbnail
    , video_id := vi.video_id, formats := sortFmts vi.formats }

/-- A six-format source with heights 144/240/360/1080/1080/720 and distinct
format ids, used as the concrete test of the resolve ordering. -/

def exFmt (id : String) (h : ℕ) : VideoFormat :=
  mkVideoFormat id "mp4" "" none (some "avc1") (some "none") none none "" (some h) none

/-- Concrete MediaSource for the resolve-ordering test of claim C8. -/

def exampleSix : VideoInfo :=
  { url := "https://youtu.be/x", title := "t", duration := 0, channel := "c"
  , thumbnail := "th", video_id := "x"
  , formats := [exFmt "f1" 144, exFmt "f2" 240, exFmt "f3" 360,
                exFmt "f4" 1080, exFmt "f5" 1080, exFmt "f6" 720] }

/-- UI-visible events a `DownloadWorker` emits through its Qt signals
(`progress`, `status_update`, `finished`, `error`; `merging` is declared in
the source but never emitted). -/

inductive Event where
  | progress (r : ProgressRecord)
  | status_update (s : String)
  | finished (path : String)
  | error (msg : String)
deriving DecidableEq

/-- Whether the cancellation flag (set at global observation step `k`, or
never) is visible at observation step `t`; the flag is monotone: once set it
stays set, exactly as `DownloadWorker._cancelled` only ever goes
False → True. -/

def flagSet (cAt : Option ℕ) (t : ℕ) : Bool :=
  match cAt with
  | some k => decide (k ≤ t)
  | none => false

/-- Events emitted by one invocation of `DownloadWorker._progress_hook`
after its cancellation check has passed. -/

def hookEvents (d : RawEvent) : List Event :=
  if d.status = "downloading" then [Event.progress (downloadingRecord d)]
  else if d.status = "finished" then
    [Event.progress ⟨100, "", "", "", ""⟩, Event.status_update "Обработка..."]
  else []

/-- Result of driving the engine's hook invocations: emitted events, the
observation step reached, and whether a hook aborted the engine call by
raising (cancellation observed). -/

structure HookRun where
  events : List Event
  time : ℕ
  aborted : Bool

/-- Runs the yt-dlp progress hooks in order: each invocation first checks
the cancellation flag and raises if set (`raise Exception("Загрузка
отменена")`), otherwise emits its events. -/

def processHooks (cAt : Option ℕ) : ℕ → List RawEvent → HookRun
  | t, [] => ⟨[], t, false⟩
  | t, d :: rest =>
    if flagSet cAt t then ⟨[], t, true⟩
    else
      let hr := processHooks cAt (t + 1) rest
      ⟨hookEvents d ++ hr.events, hr.time, hr.aborted⟩

/-- Outcome of the engine call itself (`ydl.extract_info`): success with a
final path, or an engine-raised exception. -/

inductive EngineOutcome where
  | success (path : String)
  | failure (msg : String)
deriving DecidableEq

/-- Event trace of one `_download_video`/`_download_audio` run wrapped by
`DownloadWorker.run`: two status events, the hook events, then — unless the
cancellation flag is observed — either the error emission of `run`'s except
branch or the final status/finished pair guarded by `if not self._cancelled`. -/

def runPath (prep dl : String) (cAt : Option ℕ) (hooks : List RawEvent)
    (outcome : EngineOutcome) : List Event :=
  let hr := processHooks cAt 0 hooks
  Event.status_update prep :: Event.status_update dl :: hr.events ++
    (if hr.aborted then
      (if flagSet cAt hr.time then [] else [Event.error "Загрузка отменена"])
    else
      match outcome with
      | EngineOutcome.failure m =>
          if flagSet cAt hr.time then [] else [Event.error m]
      | EngineOutcome.success p =>
          if flagSet cAt hr.time then []
          else [Event.status_update "Готово!", Event.finished p])

/-- Event trace of `DownloadWorker.run`: dispatches on
`format_choice["type"] == "audio"` exactly as the source does. -/

def runWorker (choiceType : String) (cAt : Option ℕ) (hooks : List RawEvent)
    (outcome : EngineOutcome) : List Event :=
  if choiceType = "audio" then
    runPath "Подготовка загрузки аудио..." "Скачивание аудио..." cAt hooks outcome
  else
    runPath "Подготовка загрузки..." "Скачивание видео..." cAt hooks outcome

/-- Embedding of `DownloadWorker.cancel`: sets the flag and logs; it emits
no events whatsoever. -/

def cancelWorker (_cancelled : Bool) : Bool × List Event :=
  (true, [])

/-- Terminal events of a task: `finished` or `error` (the worker exposes no
cancelled signal). -/

def isTerminal : Event → Bool
  | Event.finished _ => true
  | Event.error _ => true
  | _ => false

/-- Number of terminal events in a trace. -/

def countTerminal (l : List Event) : ℕ :=
  l.countP (fun e => isTerminal e)

/-- Whether an event is an error emission. -/

def isError : Event → Bool
  | Event.error _ => true
  | _ => false

/-- Number of error events in a trace. -/

def countError (l : List Event) : ℕ :=
  l.countP (fun e => isError e)

/-- Number of events that follow the first terminal event of a trace. -/

def countAfterTerminal : List Event → ℕ
  | [] => 0
  | e :: rest => if isTerminal e then rest.length else countAfterTerminal rest

/-- One yt-dlp postprocessor directive as built by `_download_video`
(`FFmpegVideoConvertor`) or `_download_audio` (`FFmpegExtractAudio`). -/

structure Postprocessor where
  key : String
  preferedformat : Option String
  preferredcodec : Option String
  preferredquality : Option String
deriving DecidableEq

/-- The `ydl_opts` dictionary entries the worker builds before calling the
engine (keys not used by the claims are omitted from the record only when
constant). -/

structure YdlOpts where
  format : String
  outtmpl : String
  merge_output_format : Option String
  postprocessors : List Postprocessor
  ffmpeg_location : Option String
deriving DecidableEq

/-- The fallback selection chain of `_download_video`: DASH chain when
FFmpeg is available, combined-stream chain otherwise. -/

def videoFormatStr (height : ℕ) (has_ffmpeg : Bool) : String :=
  if has_ffmpeg then
    "bestvideo[height<=" ++ toString height ++ "][ext=mp4]+bestaudio[ext=m4a]/" ++
    "bestvideo[height<=" ++ toString height ++ "]+bestaudio/" ++
    "best[height<=" ++ toString height ++ "]/" ++
    "best"
  else
    "best[height<=" ++ toString height ++ "][ext=mp4]/" ++
    "best[height<=" ++ toString height ++ "]/" ++
    "best[ext=mp4]/" ++
    "best"

/-- `ydl_opts` built by `_download_video`: `merge_output_format = "mp4"` and
the video-convert postprocessor are added only when FFmpeg is available
(`os.path.join`/`os.path.dirname` are abstracted to their string results). -/

def buildVideoOpts (choice : BestFmt) (output_dir : String) (has_ffmpeg : Bool)
    (ffmpeg_path : Option String) : YdlOpts :=
  { format := videoFormatStr choice.height has_ffmpeg
  , outtmpl := output_dir ++ "/%(title)s.%(ext)s"
  , merge_output_format := if has_ffmpeg then some "mp4" else none
  , postprocessors :=
      if has_ffmpeg then [⟨"FFmpegVideoConvertor", some "mp4", none, none⟩] else []
  , ffmpeg_location := ffmpeg_path }

/-- `ydl_opts` built by `_download_audio`: always `bestaudio/best`, never a
merge container; the MP3 extraction postprocessor only when FFmpeg is
available. -/

def buildAudioOpts (output_dir : String) (has_ffmpeg : Bool)
    (ffmpeg_path : Option String) : YdlOpts :=
  { format := "bestaudio/best"
  , outtmpl := output_dir ++ "/%(title)s.%(ext)s"
  , merge_output_format := none
  , postprocessors :=
      if has_ffmpeg then [⟨"FFmpegExtractAudio", none, some "mp3", some "192"⟩] else []
  , ffmpeg_location := ffmpeg_path }

/-- The planner: `DownloadWorker.run` dispatches on
`format_choice["type"] == "audio"`, and each branch builds its `ydl_opts`. -/

def buildOpts (choice : BestFmt) (output_dir : String) (has_ffmpeg : Bool)
    (ffmpeg_path : Option String) : YdlOpts :=
  if choice.type = "audio" then buildAudioOpts output_dir has_ffmpeg ffmpeg_path
  else buildVideoOpts choice output_dir has_ffmpeg ffmpeg_path

/-- A plan requires the merge step exactly when a merge output container was
scheduled (`merge_output_format` key present). -/

def mergeRequired (o : YdlOpts) : Bool :=
  o.merge_output_format.isSome

/-- The mutable registry state of `MainWindow`: the `active_workers` list
(worker identities as numbers). -/

structure MainWindowState where
  active_workers : List ℕ
deriving DecidableEq

/-- Embedding of `MainWindow._start_download` as far as the registry is
concerned: the worker is appended and started immediately — there is no
check against any configured maximum and no queue. -/

def start_download (s : MainWindowState) (w : ℕ) : MainWindowState :=
  { active_workers := s.active_workers ++ [w] }

/-- Embedding of `MainWindow._on_worker_finished`: remove the worker if
present (Python `list.remove` drops the first occurrence). -/

def on_worker_finished (s : MainWindowState) (w : ℕ) : MainWindowState :=
  { active_workers := s.active_workers.erase w }

/-- The registry's observable in-flight count: `len(self.active_workers)`. -/

def activeCount (s : MainWindowState) : ℕ :=
  s.active_workers.length

/-- Embedding of `config.DEFAULT_MAX_CONCURRENT` (src/core/config.py). -/

def DEFAULT_MAX_CONCURRENT : ℕ := 3

lemma format_eta_eq_spec (s : ℤ) :
    format_eta s = if s < 0 then "N/A" else specEtaFormat s.toNat := by
  by_cases hs : s < 0
  · simp [format_eta, hs]
  · simp only [format_eta, if_neg hs, specEtaFormat]
    by_cases h : 3600 ≤ s.toNat
    · have h1 : 0 < s.toNat / 3600 := Nat.div_pos h (by norm_num)
      rw [if_pos h1, if_pos h]
      have e1 : s.toNat % 3600 / 60 = s.toNat / 60 % 60 := by omega
      have e2 : s.toNat % 3600 % 60 = s.toNat % 60 := by omega
      rw [e1, e2]
    · have h1 : ¬ 0 < s.toNat / 3600 := by omega
      rw [if_neg h1, if_neg h]
      have e3 : s.toNat % 3600 = s.toNat := Nat.mod_eq_of_lt (by omega)
      rw [e3]

/-- Claim C4 counterexample: the code renders a negative ETA as the literal
"N/A", not as the "unknown" sentinel the claim names. -/

theorem C4_counterexample :
    format_eta (-1) = "N/A" ∧ format_eta (-1) ≠ "unknown" := by
  constructor
  · rfl
  · decide

/-- Claim C4 (amended): for non-negative seconds the rendering is `H:MM:SS`
when at least one hour and `M:SS` otherwise (45 → "0:45", 3725 → "1:02:05");
a negative ETA renders as the literal "N/A", and an absent ETA is rendered
by the progress hook as "...". -/

theorem C4_eta_formatting_amended :
    (∀ s : ℤ, format_eta s = if s < 0 then "N/A" else specEtaFormat s.toNat)
    ∧ format_eta 45 = "0:45"
    ∧ format_eta 3725 = "1:02:05"
    ∧ (∀ s : ℤ, s < 0 → format_eta s = "N/A")
    ∧ (∀ db tb tbe sp,
        (downloadingRecord ⟨"downloading", db, tb, tbe, sp, none⟩).eta = "...")
    := by
  refine ⟨format_eta_eq_spec, rfl, rfl, ?_, ?_⟩
  · intro s hs
    simp [format_eta, hs]
  · intro db tb tbe sp
    rfl

/-- Claim C4 witness: the amended theorem applied at the concrete input -5. -/

theorem C4_witness : format_eta (-5) = "N/A" :=
  C4_eta_formatting_amended.2.2.2.1 (-5) (by norm_num)

/-- Claim C5: percent equals downloaded/total*100 clamped to [0,100] when the
total is known and positive and 0 otherwise; 512000/2048000 gives 25.0 and
0/0 gives 0.0 with no division error. -/

theorem C5_percent_normalization :
    (∀ downloaded total : ℕ, progressPercent downloaded total =
        if 0 < total then max 0 (min ((downloaded : ℚ) / (total : ℚ) * 100) 100) else 0)
    ∧ (∀ downloaded total : ℕ,
        0 ≤ progressPercent downloaded total ∧ progressPercent downloaded total ≤ 100)
    ∧ (downloadingRecord ⟨"downloading", some 512000, some 2048000, none, none, none⟩).percent = 25
    ∧ (downloadingRecord ⟨"downloading", some 0, some 0, none, none, none⟩).percent = 0 := by
  have hnn : ∀ downloaded total : ℕ, (0:ℚ) ≤ (downloaded : ℚ) / (total : ℚ) * 100 := by
    intro d t
    positivity
  refine ⟨?_, ?_, ?_, ?_⟩
  · intro d t
    unfold progressPercent
    by_cases h : 0 < t
    · rw [if_pos h, if_pos h, max_eq_right (le_min (hnn d t) (by norm_num))]
    · rw [if_neg h, if_neg h]
  · intro d t
    unfold progressPercent
    by_cases h : 0 < t
    · rw [if_pos h]
      exact ⟨le_min (hnn d t) (by norm_num), min_le_right _ _⟩
    · rw [if_neg h]
      norm_num
  · norm_num [downloadingRecord, progressPercent, pyOrNat]
  · norm_num [downloadingRecord, progressPercent, pyOrNat]

/-- Claim C6: byte and rate formatting use 1024-based thresholds with unit
escalation B → KB → MB → GB for sizes and B/s → KB/s → MB/s for rates;
512 → "512 B", 2048 → "2.0 KB", 5242880 → "5.0 MB". -/

theorem C6_byte_rate_formatting :
    format_bytes 512 = "512 B"
    ∧ format_bytes 2048 = "2.0 KB"
    ∧ format_bytes 5242880 = "5.0 MB"
    ∧ (∀ b : ℚ, b < 1024 → ∃ p, format_bytes b = p ++ " B")
    ∧ (∀ b : ℚ, 1024 ≤ b → b < 1024 ^ 2 → ∃ p, format_bytes b = p ++ " KB")
    ∧ (∀ b : ℚ, 1024 ^ 2 ≤ b → b < 1024 ^ 3 → ∃ p, format_bytes b = p ++ " MB")
    ∧ (∀ b : ℚ, 1024 ^ 3 ≤ b → ∃ p, format_bytes b = p ++ " GB")
    ∧ (∀ s : ℚ, s < 1024 → ∃ p, format_speed s = p ++ " B/s")
    ∧ (∀ s : ℚ, 1024 ≤ s → s < 1024 ^ 2 → ∃ p, format_speed s = p ++ " KB/s")
    ∧ (∀ s : ℚ, 1024 ^ 2 ≤ s → ∃ p, format_speed s = p ++ " MB/s") := by
  refine ⟨?_, ?_, ?_, ?_, ?_, ?_, ?_, ?_, ?_, ?_⟩
  · norm_num [format_bytes, formatFixed, roundHalfEven, padZeros]
    rfl
  · norm_num [format_bytes, formatFixed, roundHalfEven, padZeros]
    rfl
  · norm_num [format_bytes, formatFixed, roundHalfEven, padZeros]
    rfl
  · intro b h
    exact ⟨formatFixed b 0, by rw [format_bytes, if_pos h]⟩
  · intro b h1 h2
    exact ⟨formatFixed (b / 1024) 1, by rw [format_bytes, if_neg (not_lt.2 h1), if_pos h2]⟩
  · intro b h1 h2
    refine ⟨formatFixed (b / 1024 ^ 2) 1, ?_⟩
    have hb : ¬ b < 1024 := by nlinarith
    rw [format_bytes, if_neg hb, if_neg (not_lt.2 h1), if_pos h2]
  · intro b h1
    refine ⟨formatFixed (b / 1024 ^ 3) 2, ?_⟩
    have hb : ¬ b < 1024 := by nlinarith
    have hb2 : ¬ b < 1024 ^ 2 := by nlinarith
    rw [format_bytes, if_neg hb, if_neg hb2, if_neg (not_lt.2 h1)]
  · intro s h
    exact ⟨formatFixed s 0, by rw [format_speed, if_pos h]⟩
  · intro s h1 h2
    exact ⟨formatFixed (s / 1024) 1, by rw [format_speed, if_neg (not_lt.2 h1), if_pos h2]⟩
  · intro s h1
    refine ⟨formatFixed (s / 1024 ^ 2) 1, ?_⟩
    have hb : ¬ s < 1024 := by nlinarith
    rw [format_speed, if_neg hb, if_neg (not_lt.2 h1)]

/-- Claim C6 witness: the KB branch of the theorem applied at 2048 bytes. -/

theorem C6_witness : ∃ p, format_bytes 2048 = p ++ " KB" :=
  C6_byte_rate_formatting.2.2.2.2.1 2048 (by norm_num) (by norm_num)

lemma videoLoop_mem {l : List VideoFormat} {seen : List ℕ} {o : BestFmt}
    (h : o ∈ videoLoop l seen) :
    o.type = "video" ∧ 240 ≤ o.height ∧ o.height ∉ seen
      ∧ o.height ∈ l.map VideoFormat.height := by
  induction l generalizing seen with
  | nil => simp [videoLoop] at h
  | cons f rest ih =>
    simp only [videoLoop] at h
    split at h
    · rcases ih h with ⟨h1, h2, h3, h4⟩
      exact ⟨h1, h2, h3, by simp [h4]⟩
    · split at h
      · rcases ih h with ⟨h1, h2, h3, h4⟩
        exact ⟨h1, h2, h3, by simp [h4]⟩
      · split at h
        · rcases ih h with ⟨h1, h2, h3, h4⟩
          exact ⟨h1, h2, h3, by simp [h4]⟩
        · rcases List.mem_cons.1 h with rfl | h'
          · have hh : (mkVideoOption f).height = f.height := rfl
            refine ⟨rfl, by omega, by assumption, by simp [mkVideoOption]⟩
          · rcases ih h' with ⟨h1, h2, h3, h4⟩
            refine ⟨h1, h2, fun hc => h3 (List.mem_cons_of_mem _ hc), by simp [h4]⟩

lemma videoLoop_heights_nodup (l : List VideoFormat) (seen : List ℕ) :
    ((videoLoop l seen).map (fun o => o.height)).Nodup := by
  induction l generalizing seen with
  | nil => simp [videoLoop]
  | cons f rest ih =>
    simp only [videoLoop]
    split
    · exact ih seen
    · split
      · exact ih seen
      · split
        · exact ih seen
        · rw [List.map_cons, List.nodup_cons]
          refine ⟨?_, ih _⟩
          intro hc
          rcases List.mem_map.1 hc with ⟨o, ho, hoh⟩
          rcases videoLoop_mem ho with ⟨_, _, h3, _⟩
          exact h3 (by rw [hoh]; exact List.mem_cons_self _ _)

lemma videoLoop_heights_sorted (l : List VideoFormat) (seen : List ℕ)
    (hl : l.Pairwise (fun a b => b.height ≤ a.height)) :
    ((videoLoop l seen).map (fun o => o.height)).Pairwise (fun a b => b < a) := by
  induction l generalizing seen with
  | nil => simp [videoLoop]
  | cons f rest ih =>
    rcases List.pairwise_cons.1 hl with ⟨hf, hrest⟩
    simp only [videoLoop]
    split
    · exact ih seen hrest
    · split
      · exact ih seen hrest
      · split
        · exact ih seen hrest
        · rw [List.map_cons, List.pairwise_cons]
          refine ⟨?_, ih _ hrest⟩
          intro x hx
          rcases List.mem_map.1 hx with ⟨o, ho, rfl⟩
          rcases videoLoop_mem ho with ⟨_, _, h3, h4⟩
          rcases List.mem_map.1 h4 with ⟨g, hg, hgh⟩
          have hle : o.height ≤ (mkVideoOption f).height := by
            simpa [mkVideoOption, hgh] using hf g hg
          have hne : o.height ≠ (mkVideoOption f).height := by
            intro hc
            exact h3 (by rw [hc]; exact List.mem_cons_self _ _)
          omega

lemma insertByHeight_mem {f g : VideoFormat} {l : List VideoFormat} :
    g ∈ insertByHeight f l ↔ g = f ∨ g ∈ l := by
  induction l with
  | nil => simp [insertByHeight]
  | cons a l ih =>
    rw [insertByHeight]
    split
    · simp
    · simp only [List.mem_cons, ih]
      tauto

lemma insertByHeight_pairwise {f : VideoFormat} {l : List VideoFormat}
    (h : l.Pairwise (fun a b => b.height ≤ a.height)) :
    (insertByHeight f l).Pairwise (fun a b => b.height ≤ a.height) := by
  induction l with
  | nil => simp [insertByHeight]
  | cons g rest ih =>
    rcases List.pairwise_cons.1 h with ⟨hg, hrest⟩
    rw [insertByHeight]
    split
    · refine List.pairwise_cons.2 ⟨?_, h⟩
      intro x hx
      rcases List.mem_cons.1 hx with rfl | hx'
      · omega
      · have := hg x hx'
        omega
    · refine List.pairwise_cons.2 ⟨?_, ih hrest⟩
      intro x hx
      rcases insertByHeight_mem.1 hx with rfl | hx'
      · omega
      · exact hg x hx'

lemma sortFmts_pairwise (l : List VideoFormat) :
    (sortFmts l).Pairwise (fun a b => b.height ≤ a.height) := by
  induction l with
  | nil => simp [sortFmts]
  | cons a l ih => exact insertByHeight_pairwise ih

lemma get_best_formats_split (vi : VideoInfo) :
    ∃ audios, get_best_formats vi = videoLoop vi.formats [] ++ audios
      ∧ (∀ o ∈ audios, o.type = "audio") ∧ audios.length ≤ 1 := by
  simp only [get_best_formats]
  cases hb : bestAudioOf (vi.formats.filter fun f => !f.has_video && f.has_audio) with
  | none =>
    refine ⟨[], ?_, by simp, by simp⟩
    simp
  | some best =>
    refine ⟨[mkAudioOption best], ?_, ?_, by simp⟩
    · rfl
    · intro o ho
      rcases List.mem_singleton.1 ho with rfl
      rfl

/-- Claim C7: resolve output has no two video options with equal height,
every video option's height is at least 240, and there is at most one
audio-only option. -/

theorem C7_resolve_invariants (vi : VideoInfo) :
    (((resolve vi).filter (fun o => o.type == "video")).map (fun o => o.height)).Nodup
    ∧ (∀ o ∈ resolve vi, o.type = "video" → 240 ≤ o.height)
    ∧ ((resolve vi).filter (fun o => o.type == "audio")).length ≤ 1 := by
  obtain ⟨audios, heq, haud, hlen⟩ := get_best_formats_split
    { url := vi.url, title := vi.title, duration := vi.duration
    , channel := vi.channel, thumbnail := vi.thumbnail
    , video_id := vi.video_id, formats := sortFmts vi.formats }
  have hres : resolve vi = videoLoop (sortFmts vi.formats) [] ++ audios := heq
  refine ⟨?_, ?_, ?_⟩
  · rw [hres, List.filter_append]
    have h1 : (videoLoop (sortFmts vi.formats) []).filter (fun o => o.type == "video")
        = videoLoop (sortFmts vi.formats) [] := by
      apply List.filter_eq_self.2
      intro o ho
      have := (videoLoop_mem ho).1
      simp [this]
    have h2 : audios.filter (fun o => o.type == "video") = [] := by
      apply List.filter_eq_nil.2
      intro o ho
      simp [haud o ho]
    rw [h1, h2, List.append_nil]
    exact videoLoop_heights_nodup _ _
  · intro o ho hv
    rw [hres] at ho
    rcases List.mem_append.1 ho with h | h
    · exact (videoLoop_mem h).2.1
    · rw [haud o h] at hv
      exact absurd hv (by decide)
  · rw [hres, List.filter_append]
    have h1 : (videoLoop (sortFmts vi.formats) []).filter (fun o => o.type == "audio")
        = [] := by
      apply List.filter_eq_nil.2
      intro o ho
      have := (videoLoop_mem ho).1
      simp [this]
    rw [h1, List.nil_append]
    exact le_trans (List.length_filter_le _ _) hlen

/-- Claim C8: resolve orders video options by strictly descending height
with the audio option (if any) appended last, and on the six-format example
(heights 144/240/360/1080/1080/720, duplicate 1080 under distinct ids) the
video heights are exactly [1080, 720, 360, 240]. -/

theorem C8_resolve_ordering :
    (∀ vi : VideoInfo, ∃ vids audios,
        resolve vi = vids ++ audios
        ∧ ((vids.map (fun o => o.height)).Pairwise (fun a b => b < a))
        ∧ (∀ o ∈ vids, o.type = "video")
        ∧ (∀ o ∈ audios, o.type = "audio")
        ∧ audios.length ≤ 1)
    ∧ ((resolve exampleSix).filter (fun o => o.type == "video")).map (fun o => o.height)
        = [1080, 720, 360, 240] := by
  constructor
  · intro vi
    obtain ⟨audios, heq, haud, hlen⟩ := get_best_formats_split
      { url := vi.url, title := vi.title, duration := vi.duration
      , channel := vi.channel, thumbnail := vi.thumbnail
      , video_id := vi.video_id, formats := sortFmts vi.formats }
    refine ⟨videoLoop (sortFmts vi.formats) [], audios, heq, ?_, ?_, haud, hlen⟩
    · exact videoLoop_heights_sorted _ _ (sortFmts_pairwise _)
    · intro o ho
      exact (videoLoop_mem ho).1
  · rfl

/-- Claim C10: a raw format with an absent height is stored with height 0 by
the `VideoFormat` constructor and is therefore skipped by the video loop of
`get_best_formats`, whatever its video codec. -/

theorem C10_absent_height_not_video (format_id ext resolution : String)
    (filesize : Option ℕ) (vcodec acodec : Option String) (fps : Option ℕ)
    (tbr : Option ℚ) (note : String) (w : Option ℕ) :
    (mkVideoFormat format_id ext resolution filesize vcodec acodec fps tbr note none w).height = 0
    ∧ ∀ (rest : List VideoFormat) (seen : List ℕ),
        videoLoop
          (mkVideoFormat format_id ext resolution filesize vcodec acodec fps tbr note none w :: rest)
          seen
        = videoLoop rest seen := by
  refine ⟨rfl, ?_⟩
  intro rest seen
  simp only [videoLoop]
  split
  · rfl
  · simp [mkVideoFormat, pyOrNat]

lemma not_terminal_not_error {e : Event} (h : isTerminal e = false) :
    isError e = false := by
  cases e with
  | progress r => rfl
  | status_update s => rfl
  | finished p => simp [isTerminal] at h
  | error m => simp [isTerminal] at h

lemma hookEvents_not_terminal (d : RawEvent) :
    ∀ e ∈ hookEvents d, isTerminal e = false := by
  intro e he
  unfold hookEvents at he
  split at he
  · simp only [List.mem_singleton] at he
    subst he
    rfl
  · split at he
    · simp only [List.mem_cons, List.mem_singleton, List.not_mem_nil, or_false] at he
      rcases he with rfl | rfl
      · rfl
      · rfl
    · simp at he

lemma processHooks_not_terminal (cAt : Option ℕ) (t : ℕ) (hooks : List RawEvent) :
    ∀ e ∈ (processHooks cAt t hooks).events, isTerminal e = false := by
  induction hooks generalizing t with
  | nil => intro e he; simp [processHooks] at he
  | cons d rest ih =>
    intro e he
    simp only [processHooks] at he
    split at he
    · simp at he
    · rcases List.mem_append.1 he with h | h
      · exact hookEvents_not_terminal d e h
      · exact ih (t + 1) e h

lemma processHooks_flag (cAt : Option ℕ) (t : ℕ) (hooks : List RawEvent)
    (h : (processHooks cAt t hooks).aborted = true) :
    flagSet cAt (processHooks cAt t hooks).time = true := by
  induction hooks generalizing t with
  | nil => simp [processHooks] at h
  | cons d rest ih =>
    by_cases hc : flagSet cAt t = true
    · simp only [processHooks, hc, if_true]
    · simp only [processHooks, hc, if_false] at h ⊢
      exact ih (t + 1) h

lemma countAfterTerminal_append {xs ys : List Event}
    (h : ∀ e ∈ xs, isTerminal e = false) :
    countAfterTerminal (xs ++ ys) = countAfterTerminal ys := by
  induction xs with
  | nil => rfl
  | cons e rest ih =>
    have he : isTerminal e = false := h e (List.mem_cons_self _ _)
    simp only [List.cons_append, countAfterTerminal, he, Bool.false_eq_true, if_false]
    exact ih fun x hx => h x (List.mem_cons_of_mem _ hx)

lemma runPath_tail_shape (prep dl : String) (cAt : Option ℕ) (hooks : List RawEvent)
    (outcome : EngineOutcome) :
    ∃ tail, runPath prep dl cAt hooks outcome =
        Event.status_update prep :: Event.status_update dl ::
          (processHooks cAt 0 hooks).events ++ tail
      ∧ (tail = []
        ∨ (∃ m, tail = [Event.error m])
        ∨ (∃ p, tail = [Event.status_update "Готово!", Event.finished p])) := by
  cases outcome with
  | failure m =>
    simp only [runPath]
    by_cases ha : (processHooks cAt 0 hooks).aborted = true
    · by_cases hf : flagSet cAt (processHooks cAt 0 hooks).time = true
      · refine ⟨[], ?_, Or.inl rfl⟩
        rw [if_pos ha, if_pos hf]
      · refine ⟨[Event.error "Загрузка отменена"], ?_, Or.inr (Or.inl ⟨_, rfl⟩)⟩
        rw [if_pos ha, if_neg hf]
    · by_cases hf : flagSet cAt (processHooks cAt 0 hooks).time = true
      · refine ⟨[], ?_, Or.inl rfl⟩
        rw [if_neg ha, if_pos hf]
      · refine ⟨[Event.error m], ?_, Or.inr (Or.inl ⟨m, rfl⟩)⟩
        rw [if_neg ha, if_neg hf]
  | success p =>
    simp only [runPath]
    by_cases ha : (processHooks cAt 0 hooks).aborted = true
    · by_cases hf : flagSet cAt (processHooks cAt 0 hooks).time = true
      · refine ⟨[], ?_, Or.inl rfl⟩
        rw [if_pos ha, if_pos hf]
      · refine ⟨[Event.error "Загрузка отменена"], ?_, Or.inr (Or.inl ⟨_, rfl⟩)⟩
        rw [if_pos ha, if_neg hf]
    · by_cases hf : flagSet cAt (processHooks cAt 0 hooks).time = true
      · refine ⟨[], ?_, Or.inl rfl⟩
        rw [if_neg ha, if_pos hf]
      · refine ⟨[Event.status_update "Готово!", Event.finished p], ?_,
          Or.inr (Or.inr ⟨p, rfl⟩)⟩
        rw [if_neg ha, if_neg hf]

lemma processHooks_no_error (cAt : Option ℕ) (hooks : List RawEvent) :
    List.countP (fun e => isError e) (processHooks cAt 0 hooks).events = 0 := by
  apply List.countP_eq_zero.2
  intro e he
  simp [not_terminal_not_error (processHooks_not_terminal cAt 0 hooks e he)]

lemma runPath_no_error (prep dl : String) (cAt : Option ℕ) (hooks : List RawEvent)
    (outcome : EngineOutcome)
    (hexc : (processHooks cAt 0 hooks).aborted = true
      ∨ ((∃ m, outcome = EngineOutcome.failure m)
          ∧ flagSet cAt (processHooks cAt 0 hooks).time = true)) :
    countError (runPath prep dl cAt hooks outcome) = 0 := by
  have htail : runPath prep dl cAt hooks outcome =
      Event.status_update prep :: Event.status_update dl ::
        (processHooks cAt 0 hooks).events ++ [] := by
    rcases hexc with ha | ⟨⟨m, hm⟩, hf⟩
    · cases outcome with
      | failure m =>
        simp only [runPath]
        rw [if_pos ha, if_pos (processHooks_flag cAt 0 hooks ha)]
      | success p =>
        simp only [runPath]
        rw [if_pos ha, if_pos (processHooks_flag cAt 0 hooks ha)]
    · subst hm
      by_cases ha : (processHooks cAt 0 hooks).aborted = true
      · simp only [runPath]
        rw [if_pos ha, if_pos (processHooks_flag cAt 0 hooks ha)]
      · simp only [runPath]
        rw [if_neg ha, if_pos hf]
  rw [htail, countError]
  simp only [List.countP_cons, List.countP_append, List.countP_nil,
    processHooks_no_error cAt hooks]
  rfl

/-- Claim C2: an engine exception raised while the cancellation flag is set
(either the hook's own cancellation abort, or an engine failure caught while
the flag is set) produces no error event: cancellation never surfaces as
Failed. -/

theorem C2_cancelled_never_error (choiceType : String) (cAt : Option ℕ)
    (hooks : List RawEvent) (outcome : EngineOutcome)
    (hexc : (processHooks cAt 0 hooks).aborted = true
      ∨ ((∃ m, outcome = EngineOutcome.failure m)
          ∧ flagSet cAt (processHooks cAt 0 hooks).time = true)) :
    countError (runWorker choiceType cAt hooks outcome) = 0 := by
  unfold runWorker
  split
  · exact runPath_no_error _ _ cAt hooks outcome hexc
  · exact runPath_no_error _ _ cAt hooks outcome hexc

/-- Claim C2 witness: a concrete cancelled run (flag set before the first
hook call of a one-hook video download) emits no error event. -/

theorem C2_witness :
    countError (runWorker "video" (some 0)
      [⟨"downloading", none, none, none, none, none⟩] (EngineOutcome.success "p")) = 0 :=
  C2_cancelled_never_error "video" (some 0)
    [⟨"downloading", none, none, none, none, none⟩] (EngineOutcome.success "p")
    (Or.inl rfl)

/-- Claim C3 counterexample: a run cancelled before any hook fires emits
zero terminal events — the trace is just the two status events — refuting
"the emitted event sequence contains exactly one terminal event". -/

theorem C3_counterexample :
    runWorker "video" (some 0) [] (EngineOutcome.success "out.mp4")
      = [Event.status_update "Подготовка загрузки...",
         Event.status_update "Скачивание видео..."]
    ∧ countTerminal (runWorker "video" (some 0) [] (EngineOutcome.success "out.mp4")) = 0 :=
  ⟨rfl, rfl⟩

/-- Claim C3 (amended): every run emits at most one terminal event and no
event of any kind after a terminal event, and `cancel()` emits no events
(so it is a no-op on a terminated task); the cancelled path, however, emits
zero terminal events — the worker has no Cancelled signal and the UI marks
cancellation directly — so "exactly one" must weaken to "at most one". -/

theorem C3_terminal_finality_amended (choiceType : String) (cAt : Option ℕ)
    (hooks : List RawEvent) (outcome : EngineOutcome) (b : Bool) :
    countTerminal (runWorker choiceType cAt hooks outcome) ≤ 1
    ∧ countAfterTerminal (runWorker choiceType cAt hooks outcome) = 0
    ∧ (cancelWorker b).2 = [] := by
  have key : ∀ prep dl, countTerminal (runPath prep dl cAt hooks outcome) ≤ 1
      ∧ countAfterTerminal (runPath prep dl cAt hooks outcome) = 0 := by
    intro prep dl
    obtain ⟨tail, heq, hshape⟩ := runPath_tail_shape prep dl cAt hooks outcome
    have hno : ∀ e ∈ (processHooks cAt 0 hooks).events, isTerminal e = false :=
      processHooks_not_terminal cAt 0 hooks
    have hxs : ∀ e ∈ Event.status_update prep :: Event.status_update dl ::
        (processHooks cAt 0 hooks).events, isTerminal e = false := by
      intro e he
      rcases List.mem_cons.1 he with rfl | he
      · rfl
      · rcases List.mem_cons.1 he with rfl | he
        · rfl
        · exact hno e he
    constructor
    · rw [heq, countTerminal, List.countP_append,
        List.countP_eq_zero.2 (fun e he => by simp [hxs e he]), zero_add]
      rcases hshape with rfl | ⟨m, rfl⟩ | ⟨p, rfl⟩ <;>
        simp [List.countP_cons, List.countP_nil, isTerminal]
    · rw [heq, countAfterTerminal_append hxs]
      rcases hshape with rfl | ⟨m, rfl⟩ | ⟨p, rfl⟩ <;> rfl
  unfold runWorker
  split
  · exact ⟨(key _ _).1, (key _ _).2, rfl⟩
  · exact ⟨(key _ _).1, (key _ _).2, rfl⟩

/-- Claim C9: for every (option, postProcessingAvailable) pair over the two
option kinds, the plan's merge-required flag is set iff post-processing is
available and the option kind is video. -/

theorem C9_merge_iff_video_and_ffmpeg (choice : BestFmt) (output_dir : String)
    (has_ffmpeg : Bool) (ffmpeg_path : Option String)
    (hkind : choice.type = "video" ∨ choice.type = "audio") :
    mergeRequired (buildOpts choice output_dir has_ffmpeg ffmpeg_path) = true
      ↔ (has_ffmpeg = true ∧ choice.type = "video") := by
  rcases hkind with hv | ha
  · rw [buildOpts, if_neg (by rw [hv]; decide)]
    cases has_ffmpeg with
    | true => simp [mergeRequired, buildVideoOpts, hv]
    | false => simp [mergeRequired, buildVideoOpts]
  · rw [buildOpts, if_pos ha]
    simp [mergeRequired, buildAudioOpts, ha]

/-- Claim C9 witness: a concrete video option with FFmpeg present gets a
merge step. -/

theorem C9_witness :
    mergeRequired (buildOpts
      ⟨"720p • MP4", "f6", "720p", 720, true, none, "video"⟩ "out" true none) = true :=
  (C9_merge_iff_video_and_ffmpeg
    ⟨"720p • MP4", "f6", "720p", 720, true, none, "video"⟩ "out" true none
    (Or.inl rfl)).mpr ⟨rfl, rfl⟩

/-- Claim C1 evidence: every submit starts immediately and grows the count
by one whatever its current value, so four submits from an empty registry
drive `activeCount` to 4, strictly above the configured maximum of 3 —
nothing is queued. -/

theorem C1_bound_violated :
    (∀ (s : MainWindowState) (w : ℕ),
        activeCount (start_download s w) = activeCount s + 1)
    ∧ activeCount (start_download (start_download (start_download
        (start_download ⟨[]⟩ 0) 1) 2) 3) = 4
    ∧ DEFAULT_MAX_CONCURRENT < 4 := by
  refine ⟨?_, rfl, by decide⟩
  intro s w
  simp [activeCount, start_download]
/-- Claim C7 witness: the invariants theorem applied to the concrete
six-format source, instantiating the membership-guarded conjunct at the
1080p option. -/
theorem C7_witness : 240 ≤ (mkVideoOption (exFmt "f4" 1080)).height :=
  (C7_resolve_invariants exampleSix).2.1 (mkVideoOption (exFmt "f4" 1080))
    (by decide) (by decide)

/-- Claim C8 witness: the ordering theorem applied to the concrete
six-format source. -/
theorem C8_witness : ∃ vids audios, resolve exampleSix = vids ++ audios
    ∧ ((vids.map (fun o => o.height)).Pairwise (fun a b => b < a))
    ∧ (∀ o ∈ vids, o.type = "video")
    ∧ (∀ o ∈ audios, o.type = "audio")
    ∧ audios.length ≤ 1 :=
  C8_resolve_ordering.1 exampleSix
